import Mathlib

/-!
Verification of the MQTT-Server broker core against its specification.
The definitions below are shallow embeddings of the Go source:
topic matching and splitting (internal/server/server.go), the broker
handlers (handleConnect, handlePublish, handleSubscribe, routeMessage,
deliverMessage, handlePingreq and the connection dispatch loop), the
wire codec fragments in the mqtt package, and Config.Validate from the
config package. Bytes are modelled as Nat, byte strings as List Nat.
-/

namespace MQTT

/-- One step of the character loop of splitTopic: `acc` holds the
characters of the current level in reverse. Each time the character /
is seen the accumulated level (possibly empty) is emitted; at the end
of the string the final level is emitted only when it is nonempty,
mirroring the `if start < len(topic)` check in the Go source. -/
def splitGo : List Char → List Char → List String
  | [], acc => if acc.isEmpty then [] else [String.mk acc.reverse]
  | c :: rest, acc =>
      if c = '/' then String.mk acc.reverse :: splitGo rest []
      else splitGo rest (c :: acc)

/-- splitTopic from internal/server/server.go: split a topic into
levels by the / character; an empty topic gives no levels, and a
trailing empty level is dropped. -/
def splitTopic (topic : String) : List String :=
  if topic = "" then [] else splitGo topic.toList []

/-- The level-by-level walk of topicMatch: the while loop over
(subLevels, pubLevels) followed by the two post-loop checks of the Go
source. A remaining # in the filter matches everything left. -/
def matchLevels : List String → List String → Bool
  | s :: _, [] => s == "#"
  | [], pl => pl.isEmpty
  | s :: ss, p :: ps =>
      if s == "#" then true
      else if s == "+" then matchLevels ss ps
      else if s == p then matchLevels ss ps
      else false

/-- topicMatch from internal/server/server.go: exact equality first,
then the level walk over both split topics. -/
def topicMatch (subTopic pubTopic : String) : Bool :=
  if subTopic == pubTopic then true
  else matchLevels (splitTopic subTopic) (splitTopic pubTopic)

/-- PublishPacket from the mqtt package: dup flag, QoS, retain flag,
topic, packet ID (uint16, 0 when absent) and raw payload bytes. -/
structure PublishPacket where
  dup : Bool
  qos : Nat
  retain : Bool
  topic : String
  packetID : Nat
  payload : List Nat
deriving DecidableEq, Repr

/-- PublishPacket.Encode from the mqtt package: the source returns the
error PUBLISH encoding not yet implemented for every packet, producing
no bytes. -/
def PublishPacket.Encode (_ : PublishPacket) : Except String (List Nat) :=
  Except.error "PUBLISH encoding not yet implemented"

/-- ConnackPacket from the mqtt package. -/
structure ConnackPacket where
  sessionPresent : Bool
  returnCode : Nat
deriving DecidableEq, Repr

/-- ConnackPacket.Encode from the mqtt package: fixed header byte
CONNACK shifted left by four, remaining length 2, session-present
byte, return code. -/
def ConnackPacket.Encode (c : ConnackPacket) : List Nat :=
  [2 * 16, 2, if c.sessionPresent then 1 else 0, c.returnCode]

/-- PingrespPacket.Encode from the mqtt package: fixed header byte
PINGRESP shifted left by four, remaining length 0. -/
def pingrespEncode : List Nat :=
  [13 * 16, 0]

/-- PubackPacket.Encode from the mqtt package: fixed header byte,
remaining length 2, packet ID big endian. -/
def pubackEncode (packetID : Nat) : List Nat :=
  [4 * 16, 2, packetID / 256, packetID % 256]

/-- Assignment to a Go map modelled on an association list: overwrite
the first binding of the key in place, or append a new binding. -/
def setKey {A : Type} : List (String × A) → String → A → List (String × A)
  | [], k, v => [(k, v)]
  | (k0, v0) :: rest, k, v =>
      if k0 = k then (k, v) :: rest else (k0, v0) :: setKey rest k v

/-- Deletion from a Go map modelled on an association list. -/
def delKey {A : Type} (l : List (String × A)) (k : String) : List (String × A) :=
  l.filter (fun p => p.1 ≠ k)

/-- The retained-message update of handlePublish in
internal/server/server.go: only a publish with the retain flag touches
the store; an empty payload deletes the entry for the exact topic, a
nonempty payload stores the packet under the exact topic. -/
def updateRetained (st : List (String × PublishPacket)) (pub : PublishPacket) :
    List (String × PublishPacket) :=
  if pub.retain then
    if pub.payload = [] then delKey st pub.topic
    else setKey st pub.topic pub
  else st

/-- One subscription request entry of a SUBSCRIBE packet: topic filter
and requested QoS. -/
structure SubEntry where
  topic : String
  qos : Nat
deriving DecidableEq, Repr

/-- The retained-delivery loop of handleSubscribe in
internal/server/server.go: every stored retained message whose topic
matches at least one filter of the SUBSCRIBE is delivered (once per
retained topic, via the inner break). -/
def retainedDeliveries (st : List (String × PublishPacket))
    (topics : List SubEntry) : List PublishPacket :=
  st.filterMap (fun p =>
    if topics.any (fun s => topicMatch s.topic p.1) then some p.2 else none)

/-- The per-client registry view of a connected client in
internal/server/server.go: client ID and the Subscriptions map from
topic filter to granted QoS, modelled as an association list in the
iteration order of the map. -/
structure Client where
  id : String
  subscriptions : List (String × Nat)
deriving DecidableEq, Repr

/-- The inner loop of routeMessage: scan the subscriptions of one
client and return the granted QoS of the first filter that matches the
published topic (the loop breaks after the first match, so each client
is delivered to at most once). -/
def findMatchQoS : List (String × Nat) → String → Option Nat
  | [], _ => none
  | (f, q) :: rest, t => if topicMatch f t then some q else findMatchQoS rest t

/-- deliverMessage from internal/server/server.go, at the level of the
packet it serializes and writes: the delivered QoS is the smaller of
the publish QoS and the subscriber QoS, and when that QoS is positive
but the inbound packet carried ID 0 the source substitutes packet ID
1. -/
def deliverMessage (pub : PublishPacket) (subQoS : Nat) : PublishPacket :=
  { pub with
    qos := if subQoS < pub.qos then subQoS else pub.qos
    packetID :=
      if (if subQoS < pub.qos then subQoS else pub.qos) > 0 ∧ pub.packetID = 0
      then 1 else pub.packetID }

/-- routeMessage from internal/server/server.go: for every client in
the registry, deliver the publish once via deliverMessage if at least
one of its subscription filters matches the topic, using the QoS of
the first matching filter. The result lists (client ID, delivered
packet) pairs. -/
def routeMessage (clients : List Client) (pub : PublishPacket) :
    List (String × PublishPacket) :=
  clients.foldr (fun c acc =>
    match findMatchQoS c.subscriptions pub.topic with
    | some q => (c.id, deliverMessage pub q) :: acc
    | none => acc) []

/-- Spec-side definition, following the specification words only: the
maximum granted QoS among the filters of a subscription list that
match a topic (0 when none match). Used to compare the source routing
against the fan-out rule of the specification. -/
def specMaxMatchQoS (subs : List (String × Nat)) (topic : String) : Nat :=
  (subs.filter (fun s => topicMatch s.1 topic)).foldr (fun s m => max s.2 m) 0

/-- The subscription-storing loop of handleSubscribe in
internal/server/server.go: each requested (filter, QoS) entry is
written into the Subscriptions map unchanged and its requested QoS is
appended to the SUBACK return codes, in request order. The accumulator
carries the Subscriptions map and the returnCodes slice. -/
def subscribeLoop :
    List (String × Nat) × List Nat → List SubEntry →
      List (String × Nat) × List Nat
  | acc, [] => acc
  | acc, e :: rest =>
      subscribeLoop (setKey acc.1 e.topic e.qos, acc.2 ++ [e.qos]) rest

/-- handleSubscribe from internal/server/server.go, restricted to its
registry and SUBACK effects: run the storing loop over the requested
entries starting from the current Subscriptions map and an empty
returnCodes slice. -/
def handleSubscribe (subs : List (String × Nat)) (entries : List SubEntry) :
    List (String × Nat) × List Nat :=
  subscribeLoop (subs, []) entries

/-- The observable effects of a successful handleConnect in
internal/server/server.go: the new clients registry (the map slot for
the client ID is overwritten), the CONNACK bytes written, and the
sockets the broker closes (the source closes none: a prior session
with the same ID is only overwritten in the map). Sockets are
identified by Nat. -/
structure ConnectEffects where
  clients : List (String × Nat)
  connack : List Nat
  closedSockets : List Nat
deriving DecidableEq, Repr

/-- handleConnect from internal/server/server.go on a successfully
decoded CONNECT: store the client under its ID, send CONNACK with
session-present false and return code 0, and close no prior socket. -/
def handleConnect (clients : List (String × Nat)) (id : String) (sock : Nat) :
    ConnectEffects :=
  { clients := setKey clients id sock
    connack := ConnackPacket.Encode ⟨false, 0⟩
    closedSockets := [] }

/-- MQTT control packet types, as in the mqtt package. -/
inductive PType
  | connect | connack | publish | puback | pubrec | pubrel | pubcomp
  | subscribe | suback | unsubscribe | unsuback | pingreq | pingresp
  | disconnect
deriving DecidableEq, Repr

/-- What the connection loop does with one inbound packet, as far as
the pre-CONNECT claims are concerned. -/
inductive NoSessionStep
  | connectHandshake
  | closeNoResponse
  | respondAndContinue (bytes : List Nat)
  | nilDereference
  | ignoreAndContinue
deriving DecidableEq, Repr

/-- The dispatch switch of handleConnection in
internal/server/server.go in the state where no CONNECT has been
processed yet (client is nil): PUBLISH, SUBSCRIBE and UNSUBSCRIBE hit
the nil guard and close the socket with no response; PINGREQ is
answered with a PINGRESP and the loop continues; DISCONNECT reads the
ID field of the nil client; every other type falls to the default
branch, which only logs and continues the loop. -/
def handlePacketNoSession : PType → NoSessionStep
  | .connect => .connectHandshake
  | .publish => .closeNoResponse
  | .subscribe => .closeNoResponse
  | .unsubscribe => .closeNoResponse
  | .pingreq => .respondAndContinue pingrespEncode
  | .disconnect => .nilDereference
  | _ => .ignoreAndContinue

/-- The configuration fields consulted by Config.Validate in the
config package. Ports are Go ints, modelled as Int. -/
structure Config where
  serverPort : Int
  tlsEnabled : Bool
  tlsCertFile : String
  tlsKeyFile : String
  storageBackend : String
  maxQoS : Nat
  logLevel : String
  metricsEnabled : Bool
  metricsPort : Int
deriving DecidableEq, Repr

/-- Config.Validate from the config package: the chain of checks in
source order, returning the first error message or none. -/
def Config.Validate (c : Config) : Option String :=
  if c.serverPort < 1 ∨ c.serverPort > 65535 then
    some "invalid port"
  else if c.tlsEnabled ∧ (c.tlsCertFile = "" ∨ c.tlsKeyFile = "") then
    some "TLS enabled but cert file or key file not specified"
  else if ¬(c.storageBackend = "memory" ∨ c.storageBackend = "bbolt" ∨
            c.storageBackend = "redis") then
    some "invalid storage backend"
  else if c.maxQoS > 2 then
    some "invalid max qos"
  else if ¬(c.logLevel = "debug" ∨ c.logLevel = "info" ∨
            c.logLevel = "warn" ∨ c.logLevel = "error") then
    some "invalid log level"
  else if c.metricsEnabled ∧ (c.metricsPort < 1 ∨ c.metricsPort > 65535) then
    some "invalid metrics port"
  else if c.metricsEnabled ∧ c.metricsPort = c.serverPort then
    some "metrics port cannot be the same as server port"
  else
    none

end MQTT

namespace MQTT

/-- A # filter level matches every remaining topic level list. -/
theorem matchLevels_hash (pl : List String) : matchLevels ["#"] pl = true := by
  cases pl <;> simp [matchLevels]

/-- Claim C3 counterexample: the source topicMatch has no special case
for topics beginning with the dollar character, so the filter #
matches the system topic $SYS/broker, contradicting the claim that
matches(#, T) is false for every topic of the form $SYS/... . -/
theorem C3_counterexample : topicMatch "#" "$SYS/broker" = true := by decide

/-- Claim C3 (amended): topicMatch implements no dollar-topic
exception; the filter # matches every topic, including every topic
beginning with the dollar character. -/
theorem C3_hash_matches_all (t : String) : topicMatch "#" t = true := by
  unfold topicMatch
  by_cases h : ("#" == t) = true
  · simp [h]
  · have hs : splitTopic "#" = ["#"] := by decide
    simp [h, hs, matchLevels_hash]

/-- Claim C7 counterexample: the filter a/+ does not match the topic
a/ in the source, because splitTopic drops the trailing empty level of
a/, contradicting the claim that + matches an empty final segment. -/
theorem C7_counterexample : topicMatch "a/+" "a/" = false := by decide

/-- Claim C7 (amended): a + filter level consumes exactly one topic
level, whatever that level is (so empty leading or interior levels are
matched, such as the filter +/b against the topic /b), and + matches
no levels of an empty remainder; but splitTopic drops a trailing empty
level, so the filter a/+ does not match the topic a/. -/
theorem C7_plus_one_level :
    (∀ (ss ps : List String) (p : String),
       matchLevels ("+" :: ss) (p :: ps) = matchLevels ss ps)
    ∧ (∀ ss : List String, matchLevels ("+" :: ss) [] = false)
    ∧ topicMatch "+/b" "/b" = true
    ∧ topicMatch "a/+/c" "a//c" = true
    ∧ topicMatch "a/+" "a/" = false := by
  refine ⟨?_, ?_, by decide, by decide, by decide⟩
  · intro ss ps p
    simp [matchLevels]
  · intro ss
    simp [matchLevels]

/-- Looking up a key right after setting it yields the new value. -/
theorem lookup_setKey_self {A : Type} (l : List (String × A)) (k : String) (v : A) :
    List.lookup k (setKey l k v) = some v := by
  induction l with
  | nil => simp [setKey, List.lookup]
  | cons hd tl ih =>
      obtain ⟨k0, v0⟩ := hd
      by_cases h : k0 = k
      · simp [setKey, h, List.lookup]
      · have hb : (k == k0) = false := by
          simp [Ne.symm h]
        simp [setKey, h, List.lookup, hb, ih]

/-- Looking up a key right after deleting it yields nothing. -/
theorem lookup_delKey_self {A : Type} (l : List (String × A)) (k : String) :
    List.lookup k (delKey l k) = none := by
  induction l with
  | nil => simp [delKey, List.lookup]
  | cons hd tl ih =>
      obtain ⟨k0, v0⟩ := hd
      by_cases h : k0 = k
      · simpa [delKey, h] using ih
      · have hb : (k == k0) = false := by
          simp [Ne.symm h]
        simpa [delKey, h, List.lookup, hb] using ih

/-- Looking up a different key is unaffected by setKey. -/
theorem lookup_setKey_ne {A : Type} (l : List (String × A)) (k k0 : String)
    (v : A) (h : k ≠ k0) : List.lookup k (setKey l k0 v) = List.lookup k l := by
  induction l with
  | nil =>
      have hb : (k == k0) = false := by
        simp [h]
      simp [setKey, List.lookup, hb]
  | cons hd tl ih =>
      obtain ⟨k1, v1⟩ := hd
      by_cases h1 : k1 = k0
      · subst h1
        have hb : (k == k1) = false := by
          simp [h]
        simp [setKey, List.lookup, hb]
      · simp only [setKey, if_neg h1]
        by_cases h2 : k = k1
        · simp [List.lookup, h2]
        · have hb : (k == k1) = false := by
            simp [h2]
          simp [List.lookup, hb, ih]

/-- The returnCodes built by the subscribe loop are the accumulated
codes followed by the requested QoS values in request order. -/
theorem subscribeLoop_snd (entries : List SubEntry)
    (subs : List (String × Nat)) (codes : List Nat) :
    (subscribeLoop (subs, codes) entries).2 =
      codes ++ entries.map SubEntry.qos := by
  induction entries generalizing subs codes with
  | nil => simp [subscribeLoop]
  | cons e rest ih => simp [subscribeLoop, ih]

/-- The Subscriptions map built by the subscribe loop does not depend
on the accumulated return codes. -/
theorem subscribeLoop_fst (entries : List SubEntry)
    (subs : List (String × Nat)) (codes : List Nat) :
    (subscribeLoop (subs, codes) entries).1 =
      (subscribeLoop (subs, []) entries).1 := by
  induction entries generalizing subs codes with
  | nil => simp [subscribeLoop]
  | cons e rest ih =>
      simp only [subscribeLoop, List.nil_append]
      rw [ih, ih (setKey subs e.topic e.qos) [e.qos]]

/-- A filter not among the requested topics keeps its binding across
the subscribe loop. -/
theorem subscribeLoop_lookup_notmem (entries : List SubEntry)
    (subs : List (String × Nat)) (codes : List Nat) (t : String)
    (h : t ∉ entries.map SubEntry.topic) :
    List.lookup t (subscribeLoop (subs, codes) entries).1 =
      List.lookup t subs := by
  induction entries generalizing subs codes with
  | nil => simp [subscribeLoop]
  | cons e rest ih =>
      simp only [List.map_cons, List.mem_cons, not_or] at h
      simp only [subscribeLoop]
      rw [ih _ _ h.2, lookup_setKey_ne _ _ _ _ h.1]

/-- Claim C2: the source wire codec cannot round-trip a PUBLISH packet
at any QoS, because PublishPacket.Encode is an unimplemented stub that
returns an error for every packet, so no encoded bytes exist to
decode. -/
theorem C2_publish_encode_fails (p : PublishPacket) :
    PublishPacket.Encode p = Except.error "PUBLISH encoding not yet implemented" :=
  rfl

/-- Claim C8: a retained publish with nonempty payload creates or
overwrites the single retained entry for its exact topic; a retained
publish with empty payload deletes the entry; and after such a delete
no subscribe delivers a retained message on the cleared topic (given
the store invariant that every entry is keyed by the topic of the
stored message). -/
theorem C8_retained_lifecycle
    (st : List (String × PublishPacket)) (pub clr : PublishPacket)
    (subs : List SubEntry)
    (hkeys : ∀ p ∈ st, (p : String × PublishPacket).2.topic = p.1)
    (hr : pub.retain = true) (hne : pub.payload ≠ [])
    (hcr : clr.retain = true) (hce : clr.payload = []) :
    List.lookup pub.topic (updateRetained st pub) = some pub ∧
    List.lookup clr.topic (updateRetained st clr) = none ∧
    ∀ m ∈ retainedDeliveries (updateRetained st clr) subs, m.topic ≠ clr.topic := by
  refine ⟨?_, ?_, ?_⟩
  · simp [updateRetained, hr, hne, lookup_setKey_self]
  · simp [updateRetained, hcr, hce, lookup_delKey_self]
  · intro m hm
    simp only [updateRetained, hcr, hce, if_pos] at hm
    simp only [retainedDeliveries, List.mem_filterMap] at hm
    obtain ⟨p, hp, hif⟩ := hm
    have hp2 : p ∈ st ∧ p.1 ≠ clr.topic := by
      simpa [delKey] using hp
    have hmp : m = p.2 := by
      by_cases hany : subs.any (fun s => topicMatch s.topic p.1) = true
      · simp [hany] at hif
        exact hif.symm
      · simp [hany] at hif
    rw [hmp, hkeys p hp2.1]
    exact hp2.2

/-- Claim C8 witness: the lifecycle at the literal scenario topic. -/
theorem C8_retained_lifecycle_witness :
    List.lookup "status/system"
        (updateRetained []
          ⟨false, 0, true, "status/system", 0, [114]⟩) =
      some ⟨false, 0, true, "status/system", 0, [114]⟩ ∧
    List.lookup "status/system"
        (updateRetained [] ⟨false, 0, true, "status/system", 0, []⟩) = none ∧
    ∀ m ∈ retainedDeliveries
        (updateRetained [] ⟨false, 0, true, "status/system", 0, []⟩)
        [⟨"status/system", 0⟩], m.topic ≠ "status/system" :=
  C8_retained_lifecycle [] ⟨false, 0, true, "status/system", 0, [114]⟩
    ⟨false, 0, true, "status/system", 0, []⟩ [⟨"status/system", 0⟩]
    (by simp) rfl (by simp) rfl rfl

/-- Claim C4 counterexample: the source grants the requested QoS
unchanged, so a SUBSCRIBE entry requesting QoS 2 is granted 2 in the
SUBACK, while the claim (with the default server max QoS of 1) would
require min(2, 1, 1) = 1. -/
theorem C4_counterexample :
    (handleSubscribe [] [⟨"t", 2⟩]).2 = [2] ∧ (2 : Nat) ≠ min 2 (min 1 1) := by
  constructor
  · rfl
  · decide

/-- Claim C4 (amended): for every SUBSCRIBE, each entry is recorded in
the registry and acknowledged in the SUBACK with exactly the requested
QoS, uncapped, with the per-entry return codes in request order. -/
theorem C4_subscribe_grants_requested (subs : List (String × Nat))
    (entries : List SubEntry)
    (hnd : (entries.map SubEntry.topic).Nodup) :
    (handleSubscribe subs entries).2 = entries.map SubEntry.qos ∧
    ∀ e ∈ entries,
      List.lookup e.topic (handleSubscribe subs entries).1 = some e.qos := by
  constructor
  · simpa using subscribeLoop_snd entries subs []
  · induction entries generalizing subs with
    | nil => simp
    | cons e rest ih =>
        simp only [List.map_cons, List.nodup_cons, List.mem_map] at hnd
        intro e0 he0
        rcases List.mem_cons.mp he0 with he0 | he0
        · subst he0
          have hnm : e0.topic ∉ rest.map SubEntry.topic := by
            intro hmem
            rcases List.mem_map.mp hmem with ⟨e1, he1, ht⟩
            exact hnd.1 ⟨e1, he1, ht⟩
          show List.lookup e0.topic
              (subscribeLoop (subs, []) (e0 :: rest)).1 = some e0.qos
          simp only [subscribeLoop]
          rw [subscribeLoop_lookup_notmem rest _ _ _ hnm,
            lookup_setKey_self]
        · have := ih (setKey subs e.topic e.qos) hnd.2 e0 he0
          show List.lookup e0.topic
              (subscribeLoop (subs, []) (e :: rest)).1 = some e0.qos
          simp only [subscribeLoop]
          rw [subscribeLoop_fst rest _ ([] ++ [e.qos])]
          exact this

/-- The key list of a map after setKey: unchanged when the key was
already bound, extended by the key at the end otherwise. -/
theorem keys_setKey {A : Type} (l : List (String × A)) (k : String) (v : A) :
    (setKey l k v).map Prod.fst =
      if k ∈ l.map Prod.fst then l.map Prod.fst
      else l.map Prod.fst ++ [k] := by
  induction l with
  | nil => simp [setKey]
  | cons hd tl ih =>
      obtain ⟨k0, v0⟩ := hd
      by_cases h : k0 = k
      · simp [setKey, h]
      · have hne : ¬k = k0 := fun he => h he.symm
        by_cases hm : k ∈ tl.map Prod.fst
        · simp [setKey, h, hm, hne, ih]
        · simp [setKey, h, hm, hne, ih]

/-- setKey preserves distinctness of the keys. -/
theorem nodup_keys_setKey {A : Type} (l : List (String × A)) (k : String)
    (v : A) (hnd : (l.map Prod.fst).Nodup) :
    ((setKey l k v).map Prod.fst).Nodup := by
  rw [keys_setKey]
  by_cases hm : k ∈ l.map Prod.fst
  · simpa [hm] using hnd
  · simpa [hm, ← List.concat_eq_append] using List.Nodup.concat hm hnd

/-- Claim C4 witness: one subscription request at QoS 1. -/
theorem C4_subscribe_grants_requested_witness :
    (handleSubscribe [] [⟨"test/topic", 1⟩]).2 = [⟨"test/topic", 1⟩].map SubEntry.qos ∧
    ∀ e ∈ ([⟨"test/topic", 1⟩] : List SubEntry),
      List.lookup e.topic (handleSubscribe [] [⟨"test/topic", 1⟩]).1 = some e.qos :=
  C4_subscribe_grants_requested [] [⟨"test/topic", 1⟩] (by simp)

/-- Claim C5 counterexample: after two CONNECTs with client ID x on
sockets 1 and 2, the registry holds only the slot for x with socket 2,
but the broker closes no socket at all, so the prior socket 1 is not
closed, contradicting the eviction part of the claim. -/
theorem C5_counterexample :
    (handleConnect (handleConnect [] "x" 1).clients "x" 2).clients =
        [("x", 2)] ∧
    (handleConnect (handleConnect [] "x" 1).clients "x" 2).closedSockets =
        [] ∧
    1 ∉ (handleConnect (handleConnect [] "x" 1).clients "x" 2).closedSockets := by
  refine ⟨by decide, rfl, by decide⟩

/-- Claim C5 (amended): the registry holds each session in exactly one
slot keyed by its client ID — a second CONNECT with the same ID
overwrites that slot with the new connection — but the broker does not
close the prior socket of the evicted session. -/
theorem C5_connect_single_slot_no_close (clients : List (String × Nat))
    (id : String) (sock : Nat) (hnd : (clients.map Prod.fst).Nodup) :
    List.lookup id (handleConnect clients id sock).clients = some sock ∧
    ((handleConnect clients id sock).clients.map Prod.fst).Nodup ∧
    List.count id ((handleConnect clients id sock).clients.map Prod.fst) = 1 ∧
    (handleConnect clients id sock).closedSockets = [] := by
  refine ⟨lookup_setKey_self clients id sock, nodup_keys_setKey clients id sock hnd, ?_, rfl⟩
  have hmem : id ∈ (setKey clients id sock).map Prod.fst := by
    rw [keys_setKey]
    by_cases hm : id ∈ clients.map Prod.fst
    · simp [hm]
    · simp [hm]
  exact List.count_eq_one_of_mem (nodup_keys_setKey clients id sock hnd) hmem

/-- Claim C5 witness: a reconnect with the same ID on a fresh socket. -/
theorem C5_connect_single_slot_no_close_witness :
    List.lookup "x" (handleConnect [("x", 1)] "x" 2).clients = some 2 ∧
    ((handleConnect [("x", 1)] "x" 2).clients.map Prod.fst).Nodup ∧
    List.count "x" ((handleConnect [("x", 1)] "x" 2).clients.map Prod.fst) = 1 ∧
    (handleConnect [("x", 1)] "x" 2).closedSockets = [] :=
  C5_connect_single_slot_no_close [("x", 1)] "x" 2 (by simp)

/-- Claim C6 counterexample: a PINGREQ arriving in the AwaitConnect
state is answered with a PINGRESP and the connection stays open,
contradicting the claim that every non-CONNECT packet closes the
socket without any response. -/
theorem C6_counterexample :
    handlePacketNoSession PType.pingreq =
        NoSessionStep.respondAndContinue pingrespEncode ∧
    handlePacketNoSession PType.pingreq ≠ NoSessionStep.closeNoResponse := by
  decide

/-- Claim C6 (amended): in the AwaitConnect state, PUBLISH, SUBSCRIBE
and UNSUBSCRIBE close the socket without a response; PINGREQ is
answered with a PINGRESP and the connection stays open; DISCONNECT
dereferences the nil session; every other non-CONNECT type is only
logged and the read loop continues. -/
theorem C6_await_connect_dispatch :
    handlePacketNoSession PType.publish = NoSessionStep.closeNoResponse ∧
    handlePacketNoSession PType.subscribe = NoSessionStep.closeNoResponse ∧
    handlePacketNoSession PType.unsubscribe = NoSessionStep.closeNoResponse ∧
    handlePacketNoSession PType.pingreq =
        NoSessionStep.respondAndContinue pingrespEncode ∧
    handlePacketNoSession PType.disconnect = NoSessionStep.nilDereference ∧
    handlePacketNoSession PType.connack = NoSessionStep.ignoreAndContinue ∧
    handlePacketNoSession PType.puback = NoSessionStep.ignoreAndContinue ∧
    handlePacketNoSession PType.pubrec = NoSessionStep.ignoreAndContinue ∧
    handlePacketNoSession PType.pubrel = NoSessionStep.ignoreAndContinue ∧
    handlePacketNoSession PType.pubcomp = NoSessionStep.ignoreAndContinue ∧
    handlePacketNoSession PType.suback = NoSessionStep.ignoreAndContinue ∧
    handlePacketNoSession PType.unsuback = NoSessionStep.ignoreAndContinue ∧
    handlePacketNoSession PType.pingresp = NoSessionStep.ignoreAndContinue := by
  decide

/-- The cons unfolding of routeMessage. -/
theorem routeMessage_cons (d : Client) (rest : List Client)
    (pub : PublishPacket) :
    routeMessage (d :: rest) pub =
      match findMatchQoS d.subscriptions pub.topic with
      | some q => (d.id, deliverMessage pub q) :: routeMessage rest pub
      | none => routeMessage rest pub := by
  simp [routeMessage]

/-- Every delivery produced by routeMessage is addressed to the ID of
some client of the registry. -/
theorem routeMessage_mem_id (clients : List Client) (pub : PublishPacket) :
    ∀ e ∈ routeMessage clients pub, e.1 ∈ clients.map Client.id := by
  induction clients with
  | nil => simp [routeMessage]
  | cons d rest ih =>
      intro e he
      rw [routeMessage_cons] at he
      cases hfm : findMatchQoS d.subscriptions pub.topic with
      | some q =>
          rw [hfm] at he
          rcases List.mem_cons.mp he with he | he
          · simp [he]
          · simp [ih e he]
      | none =>
          rw [hfm] at he
          simp [ih e he]

/-- Claim C1 counterexample: a session subscribed with the filters a
at granted QoS 0 and # at granted QoS 1 receives a QoS 1 publish on
topic a at delivery QoS 0 — the QoS of the first matching filter in
iteration order — while the claim requires min(1, max(0, 1)) = 1. -/
theorem C1_counterexample :
    (routeMessage [⟨"s", [("a", 0), ("#", 1)]⟩]
        ⟨false, 1, false, "a", 7, [1]⟩).map (fun e => (e.1, e.2.qos)) =
      [("s", 0)] ∧
    min (1 : Nat)
        (specMaxMatchQoS [("a", 0), ("#", 1)] "a") = 1 ∧
    (0 : Nat) ≠ 1 := by
  refine ⟨by decide, by decide, by decide⟩

/-- Claim C1 (amended): for every publish routed by the broker, every
registered session with at least one matching subscription filter
receives the publish exactly once, and the delivery QoS is min(q, g)
where g is the granted QoS of the first matching filter in the
iteration order of the subscription map (an arbitrary order in Go),
not necessarily the maximum among matching filters. -/
theorem C1_route_once_first_match (clients : List Client)
    (pub : PublishPacket) (c : Client) (hc : c ∈ clients)
    (hnd : (clients.map Client.id).Nodup) :
    ((routeMessage clients pub).filter (fun e => e.1 == c.id) =
      match findMatchQoS c.subscriptions pub.topic with
      | some g => [(c.id, deliverMessage pub g)]
      | none => []) ∧
    ∀ g, (deliverMessage pub g).qos = min pub.qos g := by
  constructor
  · induction clients with
    | nil => cases hc
    | cons d rest ih =>
        simp only [List.map_cons, List.nodup_cons] at hnd
        rcases List.mem_cons.mp hc with rfl | hc0
        · have hrest : (routeMessage rest pub).filter
              (fun e => e.1 == c.id) = [] := by
            rw [List.filter_eq_nil_iff]
            intro e he
            have := routeMessage_mem_id rest pub e he
            simp only [beq_iff_eq]
            intro heq
            rw [heq] at this
            exact hnd.1 this
          rw [routeMessage_cons]
          cases hfm : findMatchQoS c.subscriptions pub.topic with
          | some q => simp [List.filter_cons, hrest]
          | none => simpa using hrest
        · have hne : (d.id == c.id) = false := by
            have hcid : c.id ∈ rest.map Client.id :=
              List.mem_map.mpr ⟨c, hc0, rfl⟩
            simp only [beq_eq_false_iff_ne, ne_eq]
            intro heq
            rw [heq] at hnd
            exact hnd.1 hcid
          rw [routeMessage_cons]
          cases hfm : findMatchQoS d.subscriptions pub.topic with
          | some q =>
              rw [List.filter_cons]
              simp only [hne, cond_false]
              exact ih hc0 hnd.2
          | none => exact ih hc0 hnd.2
  · intro g
    simp only [deliverMessage]
    rcases Nat.lt_or_ge g pub.qos with h | h
    · simp [h, Nat.min_eq_right (Nat.le_of_lt h)]
    · simp [Nat.not_lt.mpr h, Nat.min_eq_left h]

/-- Claim C1 witness: one subscriber with one matching filter. -/
theorem C1_route_once_first_match_witness :
    ((routeMessage [⟨"sub", [("test/topic", 0)]⟩]
        ⟨false, 0, false, "test/topic", 0, [72]⟩).filter
          (fun e => e.1 == "sub") =
      match findMatchQoS [("test/topic", 0)] "test/topic" with
      | some g =>
          [("sub", deliverMessage ⟨false, 0, false, "test/topic", 0, [72]⟩ g)]
      | none => []) ∧
    ∀ g, (deliverMessage ⟨false, 0, false, "test/topic", 0, [72]⟩ g).qos =
      min 0 g :=
  C1_route_once_first_match [⟨"sub", [("test/topic", 0)]⟩]
    ⟨false, 0, false, "test/topic", 0, [72]⟩ ⟨"sub", [("test/topic", 0)]⟩
    (by simp) (by simp)

/-- Claim C9 counterexample: a configuration that satisfies every rule
listed in the claim (port 1883 in range, TLS disabled, backend memory,
max QoS 1, log level info, metrics port 70000 different from the
server port) is still rejected by Config.Validate, because the source
additionally requires the metrics port to lie in [1, 65535] when
metrics are enabled. -/
theorem C9_counterexample :
    Config.Validate ⟨1883, false, "", "", "memory", 1, "info", true, 70000⟩ =
        some "invalid metrics port" ∧
    (1 : Int) ≤ 1883 ∧ (1883 : Int) ≤ 65535 ∧
    (("memory" : String) = "memory" ∨ ("memory" : String) = "bbolt" ∨
      ("memory" : String) = "redis") ∧
    (1 : Nat) ≤ 2 ∧
    (("info" : String) = "debug" ∨ ("info" : String) = "info" ∨
      ("info" : String) = "warn" ∨ ("info" : String) = "error") ∧
    (70000 : Int) ≠ 1883 := by
  refine ⟨by decide, by decide, by decide, by decide, by decide, by decide,
    by decide⟩

/-- Claim C9 (amended): Config.Validate accepts a configuration
exactly when the server port is in [1, 65535], TLS (when enabled) has
both a certificate and a key file, the storage backend is memory,
bbolt or redis, the max QoS is at most 2, the log level is one of
debug, info, warn, error, and — when metrics are enabled — the metrics
port is itself in [1, 65535] and differs from the server port. -/
theorem C9_validate_iff (c : Config) :
    c.Validate = none ↔
      (1 ≤ c.serverPort ∧ c.serverPort ≤ 65535 ∧
       (c.tlsEnabled = true → c.tlsCertFile ≠ "" ∧ c.tlsKeyFile ≠ "") ∧
       (c.storageBackend = "memory" ∨ c.storageBackend = "bbolt" ∨
         c.storageBackend = "redis") ∧
       c.maxQoS ≤ 2 ∧
       (c.logLevel = "debug" ∨ c.logLevel = "info" ∨
         c.logLevel = "warn" ∨ c.logLevel = "error") ∧
       (c.metricsEnabled = true →
         1 ≤ c.metricsPort ∧ c.metricsPort ≤ 65535 ∧
           c.metricsPort ≠ c.serverPort)) := by
  unfold Config.Validate
  by_cases h1 : c.serverPort < 1 ∨ c.serverPort > 65535
  · rw [if_pos h1]
    refine iff_of_false (by simp) ?_
    rintro ⟨hA, hB, -⟩
    rcases h1 with h | h <;> omega
  rw [if_neg h1]
  push_neg at h1
  by_cases h2 : (c.tlsEnabled : Prop) ∧ (c.tlsCertFile = "" ∨ c.tlsKeyFile = "")
  · rw [if_pos h2]
    refine iff_of_false (by simp) ?_
    rintro ⟨-, -, hC, -⟩
    obtain ⟨ht, hor⟩ := h2
    obtain ⟨hc1, hk1⟩ := hC ht
    rcases hor with h | h
    · exact hc1 h
    · exact hk1 h
  rw [if_neg h2]
  push_neg at h2
  by_cases h3 : c.storageBackend = "memory" ∨ c.storageBackend = "bbolt" ∨
      c.storageBackend = "redis"
  case neg =>
    rw [if_pos h3]
    refine iff_of_false (by simp) ?_
    rintro ⟨-, -, -, hD, -⟩
    exact h3 hD
  rw [if_neg (not_not_intro h3)]
  by_cases h4 : c.maxQoS > 2
  · rw [if_pos h4]
    refine iff_of_false (by simp) ?_
    rintro ⟨-, -, -, -, hE, -⟩
    omega
  rw [if_neg h4]
  by_cases h5 : c.logLevel = "debug" ∨ c.logLevel = "info" ∨
      c.logLevel = "warn" ∨ c.logLevel = "error"
  case neg =>
    rw [if_pos h5]
    refine iff_of_false (by simp) ?_
    rintro ⟨-, -, -, -, -, hF, -⟩
    exact h5 hF
  rw [if_neg (not_not_intro h5)]
  by_cases h6 : (c.metricsEnabled : Prop) ∧
      (c.metricsPort < 1 ∨ c.metricsPort > 65535)
  · rw [if_pos h6]
    refine iff_of_false (by simp) ?_
    rintro ⟨-, -, -, -, -, -, hG⟩
    obtain ⟨hm, hor⟩ := h6
    obtain ⟨hp1, hp2, -⟩ := hG hm
    rcases hor with h | h <;> omega
  rw [if_neg h6]
  push_neg at h6
  by_cases h7 : (c.metricsEnabled : Prop) ∧ c.metricsPort = c.serverPort
  · rw [if_pos h7]
    refine iff_of_false (by simp) ?_
    rintro ⟨-, -, -, -, -, -, hG⟩
    obtain ⟨hm, heq⟩ := h7
    exact (hG hm).2.2 heq
  rw [if_neg h7]
  push_neg at h7
  refine iff_of_true rfl
    ⟨h1.1, h1.2, h2, h3, by omega, h5,
      fun hm => ⟨(h6 hm).1, (h6 hm).2, h7 hm⟩⟩

/-- Claim C10: the connection handler does dereference the nil session
when a DISCONNECT arrives before any CONNECT: the DISCONNECT case of
the dispatch switch reads the ID field of the nil client, while a
first-packet PINGREQ is handled without touching session state. -/
theorem C10_disconnect_nil_deref :
    handlePacketNoSession PType.disconnect = NoSessionStep.nilDereference ∧
    handlePacketNoSession PType.pingreq =
        NoSessionStep.respondAndContinue pingrespEncode := by
  decide

end MQTT
